import Mathlib

/-!
Verification development for the notebook output renderer
(extensions/notebook-renderers/src/index.ts).

The renderer is shallowly embedded: the DOM surface is a tree of element
nodes, stateful DOM mutation becomes explicit state passing, and the
activation closure (the disposables map and the object-URL allocator)
becomes an explicit state record.  External collaborators that live outside
the verified file (the ANSI formatter, the truncation formatter, the host
HTML parser behind innerHTML, and the host JSON decoder) are modelled from
the specification at their interface boundary, each marked as such.
-/

namespace NotebookRenderers

/-- A DOM element node: tag name, class list, attribute list, text content
(innerText / the script text body), a flag recording whether the node was
freshly constructed by createElement (as opposed to parsed from markup,
hence inert for scripts), and the child list. -/
inductive Dom where
  | node (tag : String) (classes : List String) (attrs : List (String × String))
         (text : String) (fresh : Bool) (children : List Dom)

def Dom.tag : Dom → String
  | .node t _ _ _ _ _ => t

def Dom.classes : Dom → List String
  | .node _ c _ _ _ _ => c

def Dom.attrs : Dom → List (String × String)
  | .node _ _ a _ _ _ => a

def Dom.text : Dom → String
  | .node _ _ _ tx _ _ => tx

def Dom.fresh : Dom → Bool
  | .node _ _ _ _ f _ => f

def Dom.children : Dom → List Dom
  | .node _ _ _ _ _ c => c

def Dom.withChildren : Dom → List Dom → Dom
  | .node t c a tx f _, ch => .node t c a tx f ch

/-- document.createElement: a fresh node with the given tag and no content. -/
def createElement (tag : String) : Dom :=
  .node tag [] [] "" true []

/-- element.appendChild(child): the child goes to the end of the child list. -/
def appendChild (d : Dom) (child : Dom) : Dom :=
  d.withChildren (d.children ++ [child])

/-- element.getAttribute(key): the first binding of the key, none when the
attribute is absent (getAttribute returns null there, which never compares
equal to a string). -/
def Dom.getAttr (d : Dom) (key : String) : Option String :=
  (d.attrs.find? (fun p => p.1 = key)).map (fun p => p.2)

/-- element.setAttribute(key, value): replaces the binding in place when the
key is present, otherwise adds it. -/
def setAttrList : List (String × String) → String → String → List (String × String)
  | [], key, v => [(key, v)]
  | (k, w) :: rest, key, v =>
    if k = key then (key, v) :: rest else (k, w) :: setAttrList rest key v

def Dom.setAttr (d : Dom) (key v : String) : Dom :=
  .node d.tag d.classes (setAttrList d.attrs key v) d.text d.fresh d.children

/-- element.classList.add(c): appends the class unless already present. -/
def Dom.addClass (d : Dom) (c : String) : Dom :=
  if d.classes.contains c then d
  else .node d.tag (d.classes ++ [c]) d.attrs d.text d.fresh d.children

def Dom.hasClass (d : Dom) (c : String) : Bool :=
  d.classes.contains c

/-- node.firstChild. -/
def Dom.firstChild (d : Dom) : Option Dom :=
  d.children.head?

/-- Assigning element.innerText replaces the text content. -/
def setInnerText (d : Dom) (s : String) : Dom :=
  .node d.tag d.classes d.attrs s d.fresh d.children

/-- All descendants of the nodes of a list, the nodes themselves included,
in document (pre-)order. -/
def descendantsList : List Dom → List Dom
  | [] => []
  | Dom.node t c a tx f ch :: rest =>
    Dom.node t c a tx f ch :: (descendantsList ch ++ descendantsList rest)

/-- All proper descendants of a node in document order (the node itself is
excluded, matching getElementsByTagName called on a container). -/
def descendants (d : Dom) : List Dom := descendantsList d.children

/-- One output payload: identity, mime tag, and the two accessors, decoded
text and raw bytes. -/
structure OutputItem where
  id : String
  mime : String
  text : String
  data : List Nat
deriving DecidableEq

/-- The ttPolicy singleton created at module load wraps markup through
createHTML; both the policy installed here (value goes through unchanged)
and the absent-policy fallback are the identity on the text. -/
def createHTML (value : String) : String := value

/-- The ttPolicy singleton's createScript; identity, as createHTML. -/
def createScript (value : String) : String := value

/-- Modelled from the spec: the external ANSI formatter (handleANSIOutput,
outside this file) converts text with escape sequences into a renderable
fragment; it is pure and never throws, so it is represented as a single
fragment node carrying the text. -/
def handleANSIOutput (text : String) : Dom :=
  .node "#ansi" [] [] text false []

/-- Modelled from the spec: the external truncation formatter
(truncatedArrayOfString, outside this file) appends a possibly-elided
rendering of the given lines, capped at maxLines, into the target; its
internal structure is external to this core, so it is represented as one
appended node recording the lines and the cap. -/
def truncatedArrayOfString (lines : List String) (maxLines : Nat) (target : Dom) : Dom :=
  appendChild target
    (.node "#truncated" [] [("max-lines", toString maxLines)]
      (String.intercalate "\n" lines) false [])

/-- Modelled from the spec: assigning markup text to element.innerHTML makes
the host parser replace the element's children with the inert parse of the
markup. The parser is an external collaborator, so its result is represented
as a single inert (fresh = false) node carrying the markup text. -/
def setInnerHTML (d : Dom) (html : String) : Dom :=
  d.withChildren [.node "#markup" [] [("html", html)] "" false []]

set_option linter.unusedVariables false in
/-- renderImage: a Blob is built from the payload bytes, a transient object
URL is allocated for it (URL.createObjectURL, modelled by the url token
handed in by the activation state), an img node pointing at the URL is
wrapped in a display div and appended, and the returned disposable revokes
the URL (modelled by returning the token to be registered). The payload is
only read through the Blob behind the opaque URL token, hence unused here. -/
def renderImage (outputInfo : OutputItem) (element : Dom) (url : Nat) : Dom × Nat :=
  let image := Dom.node "img" [] [("src", toString url)] "" true []
  let display := Dom.node "div" ["display"] [] "" true [image]
  (appendChild element display, url)

/-- The fixed attribute allow-list copied onto revived script nodes. -/
def preservedScriptAttributes : List String :=
  ["type", "src", "nonce", "noModule", "async"]

/-- The attribute-copy loop of domEval: for each allow-listed key, the value
is read off the old node (the IDL property read node[key] followed by the
getAttribute fallback is modelled as the attribute lookup) and, when truthy
(present and non-empty), set on the new script tag. -/
def copyAttrsGo (keys : List String) (node : Dom) (scriptTag : Dom) : Dom :=
  match keys with
  | [] => scriptTag
  | key :: rest =>
    let scriptTag :=
      match node.getAttr key with
      | some val => if val = "" then scriptTag else scriptTag.setAttr key val
      | none => scriptTag
    copyAttrsGo rest node scriptTag

/-- The new executable script node domEval builds for an inert script node:
document.createElement('script'), text body set through the ttPolicy
(identity) from the old node's innerText, allow-listed attributes copied. -/
def mkScriptTag (node : Dom) : Dom :=
  copyAttrsGo preservedScriptAttributes node
    (setInnerText (createElement "script") (createScript node.text))

/-- The snapshot Array.from(container.getElementsByTagName('script')). -/
def scriptsIn (container : Dom) : List Dom :=
  (descendants container).filter (fun n => n.tag = "script")

/-- domEval: for each script node of the snapshot, build the new executable
script tag and run container.appendChild(scriptTag).parentNode.removeChild(scriptTag):
the freshly appended node is the last child and is removed again by
reference, so the child list is restored; the appended-then-removed
(hence executed) script tags are collected in order. The old inert nodes
are not touched. -/
def domEval (container : Dom) : Dom × List Dom :=
  (scriptsIn container).foldl
    (fun acc node =>
      let scriptTag := mkScriptTag node
      let c1 := acc.1.withChildren (acc.1.children ++ [scriptTag])
      let c2 := c1.withChildren c1.children.dropLast
      (c2, acc.2 ++ [scriptTag]))
    (container, [])

/-- renderHTML: build a div, assign the payload text through the ttPolicy to
its innerHTML, append it to the container, then run domEval over it. In the
source domEval mutates the already-appended element in place; nothing
observes the tree in between, so the revival is applied before appending. -/
def renderHTML (outputInfo : OutputItem) (container : Dom) : Dom :=
  let htmlContent := outputInfo.text
  let element := setInnerHTML (createElement "div") (createHTML htmlContent)
  appendChild container (domEval element).1

/-- renderJavascript: wrap the payload text in a script tag, inject it as
markup into a fresh div, append and revive, as renderHTML. -/
def renderJavascript (outputInfo : OutputItem) (container : Dom) : Dom :=
  let str := outputInfo.text
  let scriptVal := "<script type=\"application/javascript\">" ++ str ++ "</script>"
  let element := setInnerHTML (createElement "div") (createHTML scriptVal)
  appendChild container (domEval element).1

/-- The decoded structured-error record (Partial of Error): each field is
absent (undefined) or a string. -/
structure ErrorLike where
  name : Option String
  message : Option String
  stack : Option String
deriving DecidableEq

/-- JavaScript truthiness of an optional string: undefined and the empty
string are falsy. -/
def jsTruthy : Option String → Bool
  | none => false
  | some s => !(s == "")

/-- JavaScript a || b on optional strings. -/
def jsOr (a b : Option String) : Option String :=
  if jsTruthy a then a else b

def skipWs : List Char → List Char
  | [] => []
  | c :: cs => if c = ' ' ∨ c = '\n' ∨ c = '\t' ∨ c = '\r' then skipWs cs else c :: cs

/-- Consume the body of a string literal up to the closing quote; escape
sequences are outside this model and make the decode fail. -/
def takeStringLit : List Char → String → Option (String × List Char)
  | [], _ => none
  | c :: cs, acc =>
    if c = '"' then some (acc, cs)
    else if c = '\\' then none
    else takeStringLit cs (acc.push c)

/-- Member list of a flat JSON object of string fields, fuel-bounded. -/
def parseMembers : Nat → List Char → List (String × String) → Option (List (String × String))
  | 0, _, _ => none
  | fuel + 1, cs, acc =>
    match skipWs cs with
    | '"' :: rest =>
      match takeStringLit rest "" with
      | none => none
      | some (key, rest1) =>
        match skipWs rest1 with
        | ':' :: rest2 =>
          match skipWs rest2 with
          | '"' :: rest3 =>
            match takeStringLit rest3 "" with
            | none => none
            | some (val, rest4) =>
              match skipWs rest4 with
              | ',' :: rest5 => parseMembers fuel rest5 (acc ++ [(key, val)])
              | '}' :: rest5 => if skipWs rest5 = [] then some (acc ++ [(key, val)]) else none
              | _ => none
          | _ => none
        | _ => none
    | _ => none

/-- Modelled from the spec: the host JSON decoder (JSON.parse, external to
this file) decoding the payload text as a structured record; modelled for
flat objects with string fields, anything else fails to decode. -/
def parseJsonObject (s : String) : Option (List (String × String)) :=
  match skipWs s.toList with
  | '{' :: rest =>
    match skipWs rest with
    | '}' :: rest1 => if skipWs rest1 = [] then some [] else none
    | _ => parseMembers (s.length + 1) rest []
  | _ => none

/-- Field access on the decoded object; the last binding of a duplicated key
wins, as in a JSON.parse result. -/
def lookupField (pairs : List (String × String)) (key : String) : Option String :=
  (pairs.reverse.find? (fun p => p.1 = key)).map (fun p => p.2)

/-- The decode of the structured-error payload text into its
name/message/stack fields. -/
def parseErrorLike (s : String) : Option ErrorLike :=
  (parseJsonObject s).map (fun pairs =>
    { name := lookupField pairs "name"
      message := lookupField pairs "message"
      stack := lookupField pairs "stack" })

/-- The traceback block of the stack branch: a pre element with the
traceback class, an 8px vertical margin, and the ANSI-formatted stack. -/
def tracebackBlock (stack : String) : Dom :=
  appendChild
    (((createElement "pre").addClass "traceback").setAttr "style.margin" "8px 0")
    (handleANSIOutput stack)

/-- The header text of the no-stack branch: name and message when both are
truthy, otherwise name or-else message, in JS truthiness. -/
def composeHeader (name message : Option String) : Option String :=
  if jsTruthy name && jsTruthy message then
    some (name.getD "" ++ ": " ++ message.getD "")
  else jsOr name message

/-- renderError: an (unused) div is created and appended first; the payload
text is decoded; on failure the call logs and returns, the empty div staying
behind; on success either the traceback block (truthy stack) or the header
line (truthy composed header) is appended, and the container is always
marked with the error class. -/
def renderError (outputInfo : OutputItem) (container : Dom) : Dom :=
  let container := appendChild container (createElement "div")
  match parseErrorLike outputInfo.text with
  | none => container
  | some err =>
    let container :=
      if jsTruthy err.stack then
        appendChild container (tracebackBlock (err.stack.getD ""))
      else
        let headerMessage := composeHeader err.name err.message
        if jsTruthy headerMessage then
          appendChild container (setInnerText (createElement "div") (headerMessage.getD ""))
        else container
    container.addClass "error"

/-- The rendering surface as renderStream sees it: the container element the
strategy appends into, whether it is attached to a parent output container
(container.parentElement), and that output container's previous sibling
(the previous output slot in the same cell), whose first child is the
previous output's rendered element. -/
structure Surface where
  hasParent : Bool
  prevSibling : Option Dom
  container : Dom

/-- Replace a node's first child; only reached when a first child exists. -/
def replaceFirstChild (d : Dom) (newFirst : Dom) : Dom :=
  d.withChildren
    (match d.children with
     | [] => []
     | _ :: rest => newFirst :: rest)

/-- renderStream: a defensive no-op when the container has no parent; else,
when the previous output slot exists and its first child carries an
output-mime-type marker equal to the payload mime, the truncation-formatted
text is appended into that existing child (continuation); otherwise a new
output-stream span is appended to the container, the container is tagged
with the payload mime, and marked as an error block when the chunk is a
stderr chunk. -/
def renderStream (outputInfo : OutputItem) (surface : Surface) (error : Bool) : Surface :=
  if surface.hasParent = false then
    surface
  else
    let continuation : Option Surface :=
      match surface.prevSibling with
      | some prev =>
        match prev.firstChild with
        | some outputElement =>
          if outputElement.getAttr "output-mime-type" = some outputInfo.mime then
            let text := outputInfo.text
            let element := truncatedArrayOfString [text] 30 (createElement "span")
            some { surface with
                   prevSibling := some (replaceFirstChild prev (appendChild outputElement element)) }
          else none
        | none => none
      | none => none
    match continuation with
    | some s => s
    | none =>
      let element := (createElement "span").addClass "output-stream"
      let text := outputInfo.text
      let element := truncatedArrayOfString [text] 30 element
      let container := appendChild surface.container element
      let container := container.setAttr "output-mime-type" outputInfo.mime
      let container := if error then container.addClass "error" else container
      { surface with container := container }

/-- renderText: a div carrying the (sic) '.output-plaintext' class, filled by
the truncation formatter, appended to the container. -/
def renderText (outputInfo : OutputItem) (container : Dom) : Dom :=
  let contentNode := (createElement "div").addClass ".output-plaintext"
  let text := outputInfo.text
  let contentNode := truncatedArrayOfString [text] 30 contentNode
  appendChild container contentNode

/-- The host rendering context: the workspace trust boolean, read at call
time (ctx.workspace.isTrusted). -/
structure RenderContext where
  isTrusted : Bool
deriving DecidableEq

/-- The state owned by one activation closure: the disposables map (output
identity to the registered disposer, represented by its object-URL token),
the log of disposer invocations (revoked tokens, in order, with
multiplicity), and the next fresh object-URL token. -/
structure ActState where
  disposables : List (String × Nat)
  invoked : List Nat
  nextUrl : Nat
deriving DecidableEq

/-- The state of a fresh activation. -/
def activateState : ActState :=
  { disposables := [], invoked := [], nextUrl := 0 }

/-- Map.set semantics of the disposables map: an existing key is updated in
place, a new key is appended. -/
def mapSet : List (String × Nat) → String → Nat → List (String × Nat)
  | [], key, v => [(key, v)]
  | (k, w) :: rest, key, v =>
    if k = key then (key, v) :: rest else (k, w) :: mapSet rest key v

/-- Map.get semantics of the disposables map. -/
def mapGet (m : List (String × Nat)) (key : String) : Option Nat :=
  (m.find? (fun p => p.1 = key)).map (fun p => p.2)

def markupMimes : List String := ["text/html", "image/svg+xml"]

def imageMimes : List String := ["image/gif", "image/png", "image/jpeg", "image/git"]

def stdoutMimes : List String :=
  ["application/vnd.code.notebook.stdout", "application/x.notebook.stdout",
   "application/x.notebook.stream"]

def stderrMimes : List String :=
  ["application/vnd.code.notebook.stderr", "application/x.notebook.stderr"]

/-- Every mime string with a case in the dispatch switch. -/
def supportedMimes : List String :=
  markupMimes ++ ["application/javascript"] ++ imageMimes ++
    ["application/vnd.code.notebook.error"] ++ stdoutMimes ++ stderrMimes ++ ["text/plain"]

/-- renderOutputItem of the object returned by activate: the switch on the
payload mime. Markup and script cases return before touching the surface
when the workspace is untrusted; the image case registers the renderImage
disposable under the payload id; unknown mimes fall through to the default
and do nothing. -/
def renderOutputItem (ctx : RenderContext) (outputInfo : OutputItem)
    (surface : Surface) (st : ActState) : Surface × ActState :=
  if outputInfo.mime = "text/html" ∨ outputInfo.mime = "image/svg+xml" then
    if ctx.isTrusted then
      ({ surface with container := renderHTML outputInfo surface.container }, st)
    else (surface, st)
  else if outputInfo.mime = "application/javascript" then
    if ctx.isTrusted then
      ({ surface with container := renderJavascript outputInfo surface.container }, st)
    else (surface, st)
  else if outputInfo.mime ∈ imageMimes then
    let r := renderImage outputInfo surface.container st.nextUrl
    ({ surface with container := r.1 },
     { st with disposables := mapSet st.disposables outputInfo.id r.2
               nextUrl := st.nextUrl + 1 })
  else if outputInfo.mime = "application/vnd.code.notebook.error" then
    ({ surface with container := renderError outputInfo surface.container }, st)
  else if outputInfo.mime ∈ stdoutMimes then
    (renderStream outputInfo surface false, st)
  else if outputInfo.mime ∈ stderrMimes then
    (renderStream outputInfo surface true, st)
  else if outputInfo.mime = "text/plain" then
    ({ surface with container := renderText outputInfo surface.container }, st)
  else (surface, st)

/-- disposeOutputItem of the object returned by activate. With a truthy id,
the registered disposer (if any) is invoked through Map.get; with an absent
id, and also with the falsy empty-string id, every registered disposer is
invoked through Map.forEach. No branch removes an entry from the map. -/
def disposeOutputItem (st : ActState) (id : Option String) : ActState :=
  match id with
  | some i =>
    if i = "" then
      { st with invoked := st.invoked ++ st.disposables.map (fun p => p.2) }
    else
      match mapGet st.disposables i with
      | some d => { st with invoked := st.invoked ++ [d] }
      | none => st
  | none =>
    { st with invoked := st.invoked ++ st.disposables.map (fun p => p.2) }

/-- A sequence of disposeOutputItem calls, run left to right. -/
def runDisposes (st : ActState) : List (Option String) → ActState
  | [] => st
  | c :: cs => runDisposes (disposeOutputItem st c) cs

/-- A script node parsed from markup: an inert placeholder. -/
def isInertScript (d : Dom) : Bool := d.tag == "script" && !d.fresh

/-- A freshly constructed executable script node. -/
def isFreshScript (d : Dom) : Bool := d.tag == "script" && d.fresh

theorem children_withChildren (d : Dom) (l : List Dom) : (d.withChildren l).children = l := by
  cases d; rfl

theorem withChildren_withChildren (d : Dom) (l l' : List Dom) :
    (d.withChildren l).withChildren l' = d.withChildren l' := by
  cases d; rfl

theorem withChildren_self (d : Dom) : d.withChildren d.children = d := by
  cases d; rfl

theorem domEval_foldl (l : List Dom) (c : Dom) (acc : List Dom) :
    l.foldl
      (fun acc node =>
        let scriptTag := mkScriptTag node
        let c1 := acc.1.withChildren (acc.1.children ++ [scriptTag])
        let c2 := c1.withChildren c1.children.dropLast
        (c2, acc.2 ++ [scriptTag]))
      (c, acc) = (c, acc ++ l.map mkScriptTag) := by
  induction l generalizing acc with
  | nil => simp
  | cons x xs ih =>
    simp only [List.foldl_cons, List.map_cons]
    rw [children_withChildren, withChildren_withChildren, List.dropLast_concat,
      withChildren_self, ih]
    simp

/-- domEval leaves the container's tree exactly as it was. -/
theorem domEval_fst (c : Dom) : (domEval c).1 = c := by
  rw [domEval, domEval_foldl]

/-- domEval executes exactly one freshly built script tag per script node of
the snapshot, in document order. -/
theorem domEval_snd (c : Dom) : (domEval c).2 = (scriptsIn c).map mkScriptTag := by
  rw [domEval, domEval_foldl]
  simp

theorem tag_setAttr (d : Dom) (k v : String) : (d.setAttr k v).tag = d.tag := rfl

theorem text_setAttr (d : Dom) (k v : String) : (d.setAttr k v).text = d.text := rfl

theorem fresh_setAttr (d : Dom) (k v : String) : (d.setAttr k v).fresh = d.fresh := rfl

theorem find?_setAttrList_same (a : List (String × String)) (k v : String) :
    (setAttrList a k v).find? (fun p => p.1 = k) = some (k, v) := by
  induction a with
  | nil => simp [setAttrList]
  | cons p rest ih =>
    obtain ⟨k0, w⟩ := p
    by_cases h : k0 = k
    · simp [setAttrList, h]
    · simp [setAttrList, h, List.find?_cons, ih]

theorem find?_setAttrList_other (a : List (String × String)) (k v k' : String) (h : k' ≠ k) :
    (setAttrList a k v).find? (fun p => p.1 = k') = a.find? (fun p => p.1 = k') := by
  have hkk' : (decide (k = k')) = false := decide_eq_false (fun hh => h hh.symm)
  induction a with
  | nil =>
    simp only [setAttrList, List.find?_cons, List.find?_nil, hkk']
  | cons p rest ih =>
    obtain ⟨k0, w⟩ := p
    by_cases h0 : k0 = k
    · subst h0
      simp [setAttrList, List.find?_cons, hkk']
    · simp only [setAttrList, if_neg h0, List.find?_cons, ih]

theorem getAttr_setAttr_same (d : Dom) (k v : String) :
    (d.setAttr k v).getAttr k = some v := by
  cases d
  simp [Dom.setAttr, Dom.getAttr, Dom.attrs, find?_setAttrList_same]

theorem getAttr_setAttr_other (d : Dom) (k v k' : String) (h : k' ≠ k) :
    (d.setAttr k v).getAttr k' = d.getAttr k' := by
  cases d
  simp [Dom.setAttr, Dom.getAttr, Dom.attrs, find?_setAttrList_other _ _ _ _ h]

theorem copyAttrsGo_tag (keys : List String) (node s : Dom) :
    (copyAttrsGo keys node s).tag = s.tag := by
  induction keys generalizing s with
  | nil => rfl
  | cons k rest ih =>
    rw [copyAttrsGo]
    cases node.getAttr k with
    | none => exact ih s
    | some val =>
      by_cases hv : val = "" <;> simp [hv, ih, tag_setAttr]

theorem copyAttrsGo_text (keys : List String) (node s : Dom) :
    (copyAttrsGo keys node s).text = s.text := by
  induction keys generalizing s with
  | nil => rfl
  | cons k rest ih =>
    rw [copyAttrsGo]
    cases node.getAttr k with
    | none => exact ih s
    | some val =>
      by_cases hv : val = "" <;> simp [hv, ih, text_setAttr]

theorem copyAttrsGo_fresh (keys : List String) (node s : Dom) :
    (copyAttrsGo keys node s).fresh = s.fresh := by
  induction keys generalizing s with
  | nil => rfl
  | cons k rest ih =>
    rw [copyAttrsGo]
    cases node.getAttr k with
    | none => exact ih s
    | some val =>
      by_cases hv : val = "" <;> simp [hv, ih, fresh_setAttr]

theorem copyAttrsGo_getAttr_not_mem (keys : List String) (node s : Dom) (key : String)
    (h : key ∉ keys) : (copyAttrsGo keys node s).getAttr key = s.getAttr key := by
  induction keys generalizing s with
  | nil => rfl
  | cons k rest ih =>
    have hk : key ≠ k := fun hh => h (hh ▸ List.mem_cons_self k rest)
    have hrest : key ∉ rest := fun hh => h (List.mem_cons_of_mem k hh)
    rw [copyAttrsGo]
    cases node.getAttr k with
    | none => exact ih s hrest
    | some val =>
      by_cases hv : val = ""
      · simp only [if_pos hv]
        exact ih s hrest
      · simp only [if_neg hv]
        rw [ih _ hrest, getAttr_setAttr_other _ _ _ _ hk]

theorem copyAttrsGo_getAttr_mem (keys : List String) (node s : Dom) (key v : String)
    (hnd : keys.Nodup) (hmem : key ∈ keys) (hval : node.getAttr key = some v) (hne : v ≠ "") :
    (copyAttrsGo keys node s).getAttr key = some v := by
  induction keys generalizing s with
  | nil => cases hmem
  | cons k rest ih =>
    rw [copyAttrsGo]
    rcases List.mem_cons.mp hmem with hk | hk
    · subst hk
      have hrest : key ∉ rest := (List.nodup_cons.mp hnd).1
      rw [hval]
      simp only [if_neg hne]
      rw [copyAttrsGo_getAttr_not_mem _ _ _ _ hrest, getAttr_setAttr_same]
    · have hnd' : rest.Nodup := (List.nodup_cons.mp hnd).2
      cases node.getAttr k with
      | none => exact ih s hnd' hk
      | some val =>
        by_cases hv : val = ""
        · simp only [hv, if_pos rfl]
          exact ih s hnd' hk
        · simp only [if_neg hv]
          exact ih _ hnd' hk

theorem mkScriptTag_tag (node : Dom) : (mkScriptTag node).tag = "script" := by
  rw [mkScriptTag, copyAttrsGo_tag]; rfl

theorem mkScriptTag_text (node : Dom) : (mkScriptTag node).text = node.text := by
  rw [mkScriptTag, copyAttrsGo_text]; rfl

theorem mkScriptTag_fresh (node : Dom) : (mkScriptTag node).fresh = true := by
  rw [mkScriptTag, copyAttrsGo_fresh]; rfl

theorem mkScriptTag_getAttr (node : Dom) (key v : String)
    (hmem : key ∈ preservedScriptAttributes) (hval : node.getAttr key = some v)
    (hne : v ≠ "") : (mkScriptTag node).getAttr key = some v := by
  rw [mkScriptTag]
  exact copyAttrsGo_getAttr_mem _ _ _ _ _ (by decide) hmem hval hne

theorem hasClass_addClass (d : Dom) (c : String) : (d.addClass c).hasClass c = true := by
  rw [Dom.addClass]
  by_cases h : d.classes.contains c = true
  · rw [if_pos h]
    exact h
  · rw [if_neg h]
    simp [Dom.hasClass, Dom.classes]

theorem mapGet_mapSet_same (m : List (String × Nat)) (k : String) (v : Nat) :
    mapGet (mapSet m k v) k = some v := by
  induction m with
  | nil => simp [mapSet, mapGet]
  | cons p rest ih =>
    obtain ⟨k0, w⟩ := p
    by_cases h : k0 = k
    · simp [mapSet, h, mapGet]
    · simp only [mapSet, if_neg h]
      simp only [mapGet, List.find?_cons] at ih ⊢
      simp [h, ih]

theorem mapSet_mapSet_same (m : List (String × Nat)) (k : String) (v v' : Nat) :
    mapSet (mapSet m k v) k v' = mapSet m k v' := by
  induction m with
  | nil => simp [mapSet]
  | cons p rest ih =>
    obtain ⟨k0, w⟩ := p
    by_cases h : k0 = k
    · simp [mapSet, h]
    · simp [mapSet, h, ih]

theorem mapGet_mem_values (m : List (String × Nat)) (k : String) (d : Nat)
    (h : mapGet m k = some d) : d ∈ m.map (fun p => p.2) := by
  rw [mapGet] at h
  obtain ⟨p, hp, hd⟩ := Option.map_eq_some'.mp h
  rw [← hd]
  exact List.mem_map_of_mem _ (List.mem_of_find?_eq_some hp)

theorem values_mapSet_not_mem (m : List (String × Nat)) (k : String) (v t : Nat)
    (hm : t ∉ m.map (fun p => p.2)) (hv : t ≠ v) :
    t ∉ (mapSet m k v).map (fun p => p.2) := by
  induction m with
  | nil => simpa [mapSet] using hv
  | cons p rest ih =>
    obtain ⟨k0, w⟩ := p
    simp only [List.map_cons, List.mem_cons] at hm
    push_neg at hm
    by_cases h : k0 = k
    · simp only [mapSet, if_pos h, List.map_cons, List.mem_cons]
      push_neg
      exact ⟨hv, hm.2⟩
    · simp only [mapSet, if_neg h, List.map_cons, List.mem_cons]
      push_neg
      exact ⟨hm.1, ih hm.2⟩

theorem disposables_disposeOutputItem (st : ActState) (c : Option String) :
    (disposeOutputItem st c).disposables = st.disposables := by
  rcases c with _ | i
  · rfl
  · rw [disposeOutputItem]
    by_cases h : i = ""
    · rw [if_pos h]
    · rw [if_neg h]
      cases mapGet st.disposables i <;> rfl

theorem not_invoked_disposeOutputItem (st : ActState) (c : Option String) (t : Nat)
    (hv : t ∉ st.disposables.map (fun p => p.2)) (hi : t ∉ st.invoked) :
    t ∉ (disposeOutputItem st c).invoked := by
  rcases c with _ | i
  · simp only [disposeOutputItem, List.mem_append]
    exact fun hh => hh.elim hi hv
  · rw [disposeOutputItem]
    by_cases h : i = ""
    · rw [if_pos h]
      simp only [List.mem_append]
      exact fun hh => hh.elim hi hv
    · rw [if_neg h]
      cases hg : mapGet st.disposables i with
      | none => exact hi
      | some d =>
        have hd : d ∈ st.disposables.map (fun p => p.2) := mapGet_mem_values _ _ _ hg
        simp only [List.mem_append, List.mem_singleton]
        rintro (hh | rfl)
        · exact hi hh
        · exact hv hd

theorem not_invoked_runDisposes (calls : List (Option String)) (st : ActState) (t : Nat)
    (hv : t ∉ st.disposables.map (fun p => p.2)) (hi : t ∉ st.invoked) :
    t ∉ (runDisposes st calls).invoked := by
  induction calls generalizing st with
  | nil => exact hi
  | cons c cs ih =>
    rw [runDisposes]
    exact ih (disposeOutputItem st c)
      ((disposables_disposeOutputItem st c).symm ▸ hv)
      (not_invoked_disposeOutputItem st c t hv hi)

/-- The state transition of the image cases of the dispatch switch: the
renderImage disposable goes into the map under the payload id, irrespective
of the trust state, and a fresh URL token is consumed. -/
theorem renderOutputItem_image_state (ctx : RenderContext) (outputInfo : OutputItem)
    (surface : Surface) (st : ActState) (him : outputInfo.mime ∈ imageMimes) :
    renderOutputItem ctx outputInfo surface st =
      ({ surface with container := (renderImage outputInfo surface.container st.nextUrl).1 },
       { st with disposables := mapSet st.disposables outputInfo.id st.nextUrl
                 nextUrl := st.nextUrl + 1 }) := by
  simp only [imageMimes, List.mem_cons, List.not_mem_nil, or_false] at him
  rcases him with hm | hm | hm | hm <;>
    simp [renderOutputItem, hm, imageMimes, renderImage]

/-- The expected new visible stream block: an output-stream span holding the
truncation-formatted text is appended to the container, the container is
tagged with the payload mime as its marker attribute and, for an error
stream, marked as an error block. -/
def newStreamBlock (outputInfo : OutputItem) (container : Dom) (error : Bool) : Dom :=
  let tagged :=
    (appendChild container
        (truncatedArrayOfString [outputInfo.text] 30
          ((createElement "span").addClass "output-stream"))).setAttr
      "output-mime-type" outputInfo.mime
  if error then tagged.addClass "error" else tagged

/-- The expected header append of the no-stack error branch: the composed
header line goes into the surface only when truthy (present and
non-empty). -/
def headerStep (container : Dom) (headerMessage : Option String) : Dom :=
  if jsTruthy headerMessage then
    appendChild container (setInnerText (createElement "div") (headerMessage.getD ""))
  else container

/-- C1: for a markup ('text/html', 'image/svg+xml') or executable-script
('application/javascript') payload, when the workspace trust boolean read at
call time is false, renderOutputItem leaves the surface unmutated and
registers no Disposer (state and surface are returned unchanged); when it is
true, the corresponding rendering strategy runs on the surface (renderHTML
for markup, renderJavascript for script) and the registry is untouched. -/
theorem trust_gating (ctx : RenderContext) (outputInfo : OutputItem)
    (surface : Surface) (st : ActState)
    (h : outputInfo.mime ∈ markupMimes ∨ outputInfo.mime = "application/javascript") :
    (ctx.isTrusted = false → renderOutputItem ctx outputInfo surface st = (surface, st)) ∧
    (ctx.isTrusted = true →
      renderOutputItem ctx outputInfo surface st =
        ({ surface with container :=
             if outputInfo.mime = "application/javascript" then
               renderJavascript outputInfo surface.container
             else renderHTML outputInfo surface.container }, st)) := by
  rcases h with hm | hj
  · simp only [markupMimes, List.mem_cons, List.not_mem_nil, or_false] at hm
    rcases hm with hm | hm <;>
      exact ⟨fun ht => by simp [renderOutputItem, hm, ht],
             fun ht => by simp [renderOutputItem, hm, ht]⟩
  · exact ⟨fun ht => by simp [renderOutputItem, hj, ht],
           fun ht => by simp [renderOutputItem, hj, ht]⟩

theorem trust_gating_witness :
    renderOutputItem { isTrusted := false }
        { id := "w1", mime := "text/html", text := "<b>hi</b>", data := [] }
        { hasParent := true, prevSibling := none, container := Dom.node "div" [] [] "" false [] }
        activateState =
      ({ hasParent := true, prevSibling := none, container := Dom.node "div" [] [] "" false [] },
       activateState) :=
  (trust_gating _ _ _ _ (Or.inl (by decide))).1 rfl

/-- C2 as stated fails on the code: disposeOutputItem never removes map
entries, so with one registered Disposer two calls carrying its identity
invoke it twice (the second call is not a no-op), and a bulk dispose leaves
the registry non-empty. -/
theorem dispose_idempotent_cex :
    ((disposeOutputItem
        (disposeOutputItem { disposables := [("a", 7)], invoked := [], nextUrl := 1 } (some "a"))
        (some "a")).invoked = [7, 7]) ∧
    ((disposeOutputItem { disposables := [("a", 7)], invoked := [], nextUrl := 1 } none).disposables
      = [("a", 7)]) := by decide

/-- C2 amended: no branch of disposeOutputItem removes a registry entry.
Disposing a present identity invokes its Disposer once per call, on every
call, not at most once across calls; bulk dispose invokes every currently
registered Disposer exactly once per call and leaves the registry unchanged,
so a subsequent bulk dispose invokes them all again instead of being a
no-op. -/
theorem dispose_no_removal (st : ActState) (id : String) :
    ((disposeOutputItem st none).disposables = st.disposables ∧
     (disposeOutputItem st none).invoked = st.invoked ++ st.disposables.map (fun p => p.2)) ∧
    (id ≠ "" →
      (disposeOutputItem st (some id)).disposables = st.disposables ∧
      (mapGet st.disposables id = none → disposeOutputItem st (some id) = st) ∧
      (∀ d, mapGet st.disposables id = some d →
        (disposeOutputItem st (some id)).invoked = st.invoked ++ [d])) := by
  refine ⟨⟨rfl, rfl⟩, fun hid => ⟨disposables_disposeOutputItem st (some id), ?_, ?_⟩⟩
  · intro hn
    simp [disposeOutputItem, hid, hn]
  · intro d hd
    simp [disposeOutputItem, hid, hd]

theorem dispose_no_removal_witness :
    (disposeOutputItem { disposables := [("a", 7)], invoked := [], nextUrl := 1 } (some "a")).invoked
      = [] ++ [7] :=
  (((dispose_no_removal { disposables := [("a", 7)], invoked := [], nextUrl := 1 } "a").2
      (by decide)).2.2) 7 (by decide)

def exO4 : OutputItem :=
  { id := "o4", mime := "application/vnd.code.notebook.error", text := "not json", data := [] }

def exC4 : Dom := Dom.node "div" [] [] "" false []

/-- C4 as stated fails on the code: renderError appends an (empty) element to
the surface before attempting the decode, so on the payload text "not json",
which fails to decode, the surface does not stay unmutated. -/
theorem error_decode_failure_cex :
    parseErrorLike "not json" = none ∧ renderError exO4 exC4 ≠ exC4 :=
  ⟨by decide, fun h => absurd (congrArg (fun d => d.children.length) h) (by decide)⟩

/-- C4 amended: for every structured-error payload whose text fails to
decode, renderError appends exactly one empty placeholder element (created
before decoding) and mutates nothing else — no content, no error marker —
and returns normally to the caller. -/
theorem error_decode_failure_amended (outputInfo : OutputItem) (container : Dom)
    (h : parseErrorLike outputInfo.text = none) :
    renderError outputInfo container = appendChild container (createElement "div") := by
  simp [renderError, h]

theorem error_decode_failure_witness :
    renderError exO4 exC4 = appendChild exC4 (createElement "div") :=
  error_decode_failure_amended exO4 exC4 (by decide)

/-- C9: renderStream with a surface that has no parent container at call time
is a defensive no-op: the surface is returned unchanged, and the call, a
total function of this embedding, never throws. -/
theorem stream_no_parent (outputInfo : OutputItem) (surface : Surface) (error : Bool)
    (h : surface.hasParent = false) :
    renderStream outputInfo surface error = surface := by
  simp [renderStream, h]

theorem stream_no_parent_witness :
    renderStream
      { id := "w9", mime := "application/vnd.code.notebook.stdout", text := "x", data := [] }
      { hasParent := false, prevSibling := none, container := Dom.node "div" [] [] "" false [] }
      false =
    { hasParent := false, prevSibling := none, container := Dom.node "div" [] [] "" false [] } :=
  stream_no_parent _ _ _ rfl

def exDomEvalC3 : Dom :=
  Dom.node "div" [] [] "" false
    [Dom.node "script" [] [("type", "module")] "alert(1)" false []]

/-- C3 as stated fails on the code: domEval appends the freshly built
executable script node to the container and immediately removes it again,
and never removes the old node, so after revival over a subtree with one
embedded script the subtree still contains one inert script placeholder and
zero freshly constructed script nodes. -/
theorem script_revival_cex :
    ((descendants (domEval exDomEvalC3).1).filter isInertScript).length = 1 ∧
    ((descendants (domEval exDomEvalC3).1).filter isFreshScript).length = 0 := by
  rw [domEval_fst]
  simp [exDomEvalC3, descendants, descendantsList, isInertScript, isFreshScript,
    Dom.tag, Dom.fresh, Dom.children, List.filter]

/-- C3 amended: script revival leaves the subtree exactly as it was (the
inert placeholders stay, nothing stays spliced in); instead, for each
embedded script node in document order, one freshly constructed executable
script node carrying the same text body through the ttPolicy, with the
allow-listed attributes (type, src, nonce, noModule, async) copied over when
present and non-empty, is appended to the container and immediately removed
again — the momentary insertion being what executes it. -/
theorem script_revival_amended (container : Dom) :
    (domEval container).1 = container ∧
    (domEval container).2 = (scriptsIn container).map mkScriptTag ∧
    ∀ node ∈ scriptsIn container,
      (mkScriptTag node).tag = "script" ∧
      (mkScriptTag node).fresh = true ∧
      (mkScriptTag node).text = createScript node.text ∧
      (∀ key ∈ preservedScriptAttributes, ∀ v, node.getAttr key = some v → v ≠ "" →
        (mkScriptTag node).getAttr key = some v) := by
  refine ⟨domEval_fst container, domEval_snd container, ?_⟩
  intro node _
  exact ⟨mkScriptTag_tag node, mkScriptTag_fresh node, mkScriptTag_text node,
    fun key hk v hv hne => mkScriptTag_getAttr node key v hk hv hne⟩

theorem script_revival_amended_witness :
    (domEval exDomEvalC3).1 = exDomEvalC3 ∧
    (mkScriptTag (Dom.node "script" [] [("type", "module")] "alert(1)" false [])).getAttr "type"
      = some "module" := by
  refine ⟨(script_revival_amended exDomEvalC3).1, ?_⟩
  exact ((script_revival_amended exDomEvalC3).2.2
      (Dom.node "script" [] [("type", "module")] "alert(1)" false [])
      (by simp [scriptsIn, exDomEvalC3, descendants, descendantsList, Dom.tag, Dom.children])).2.2.2
    "type" (by decide) "module" rfl (by decide)

/-- C5: stream coalescing: when the previous output slot exists, has exactly
one content child, and that child's recorded output-mime-type marker equals
the payload mime, the second render appends its truncation-formatted text
into that existing child and the container gets no new block; on a marker
mismatch of the previous slot's first child (an intervening non-stream
output has no marker at all), or with no previous slot, a new block tagged
with the payload mime is created on the container instead. -/
theorem stream_coalescing (outputInfo : OutputItem) (surface : Surface) (error : Bool)
    (hp : surface.hasParent = true) :
    (∀ prev c, surface.prevSibling = some prev → prev.children = [c] →
       c.getAttr "output-mime-type" = some outputInfo.mime →
       renderStream outputInfo surface error =
         { surface with prevSibling := some (prev.withChildren
             [appendChild c (truncatedArrayOfString [outputInfo.text] 30 (createElement "span"))]) }) ∧
    (∀ prev fc, surface.prevSibling = some prev → prev.firstChild = some fc →
       fc.getAttr "output-mime-type" ≠ some outputInfo.mime →
       renderStream outputInfo surface error =
         { surface with container := newStreamBlock outputInfo surface.container error }) ∧
    (surface.prevSibling = none →
       renderStream outputInfo surface error =
         { surface with container := newStreamBlock outputInfo surface.container error }) := by
  refine ⟨?_, ?_, ?_⟩
  · intro prev c hprev hch hattr
    have hfc : prev.firstChild = some c := by
      rw [Dom.firstChild, hch]
      rfl
    simp [renderStream, hp, hprev, hfc, hattr, replaceFirstChild, hch]
  · intro prev fc hprev hfc hattr
    simp [renderStream, hp, hprev, hfc, hattr, newStreamBlock]
  · intro hprev
    simp [renderStream, hp, hprev, newStreamBlock]

theorem stream_coalescing_witness :
    renderStream
      { id := "s2", mime := "application/vnd.code.notebook.stdout", text := "b", data := [] }
      { hasParent := true,
        prevSibling := some (Dom.node "div" [] [] "" false
          [Dom.node "div" [] [("output-mime-type", "application/vnd.code.notebook.stdout")] "" false []]),
        container := Dom.node "div" [] [] "" false [] }
      false =
    { hasParent := true,
      prevSibling := some (Dom.node "div" [] [] "" false
        [appendChild
          (Dom.node "div" [] [("output-mime-type", "application/vnd.code.notebook.stdout")] "" false [])
          (truncatedArrayOfString ["b"] 30 (createElement "span"))]),
      container := Dom.node "div" [] [] "" false [] } :=
  (stream_coalescing _ _ _ rfl).1
    (Dom.node "div" [] [] "" false
      [Dom.node "div" [] [("output-mime-type", "application/vnd.code.notebook.stdout")] "" false []])
    (Dom.node "div" [] [("output-mime-type", "application/vnd.code.notebook.stdout")] "" false [])
    rfl rfl rfl

/-- C7: for every successfully decoded structured-error payload: with a
truthy stack field the ANSI-formatted traceback block is appended and
name/message are ignored (the result depends on the stack alone); otherwise
the composed header — 'name: message' when both are truthy, else whichever
of the two is truthy — is appended only when non-empty; and in every decoded
case the surface is marked as an error block. -/
theorem error_decoded (outputInfo : OutputItem) (container : Dom) (err : ErrorLike)
    (h : parseErrorLike outputInfo.text = some err) :
    (renderError outputInfo container).hasClass "error" = true ∧
    (∀ s, err.stack = some s → s ≠ "" →
       renderError outputInfo container =
         (appendChild (appendChild container (createElement "div"))
             (tracebackBlock s)).addClass "error") ∧
    (jsTruthy err.stack = false →
       renderError outputInfo container =
         (headerStep (appendChild container (createElement "div"))
             (composeHeader err.name err.message)).addClass "error") ∧
    (∀ n m, err.name = some n → n ≠ "" → err.message = some m → m ≠ "" →
       composeHeader err.name err.message = some (n ++ ": " ++ m)) ∧
    (jsTruthy err.name = false → composeHeader err.name err.message = err.message) ∧
    (∀ n, err.name = some n → n ≠ "" → jsTruthy err.message = false →
       composeHeader err.name err.message = some n) := by
  refine ⟨?_, ?_, ?_, ?_, ?_, ?_⟩
  · simp only [renderError, h]
    exact hasClass_addClass _ _
  · intro s hs hne
    simp [renderError, h, hs, jsTruthy, hne]
  · intro hst
    simp [renderError, h, hst, headerStep]
  · intro n m hn hnne hm hmne
    simp [composeHeader, jsTruthy, hn, hm, hnne, hmne]
  · intro hfn
    simp [composeHeader, jsOr, hfn]
  · intro n hn hnne hfm
    have hyn : jsTruthy (some n) = true := by simp [jsTruthy, hnne]
    simp [composeHeader, jsOr, hn, hyn, hfm]

def exO7 : OutputItem :=
  { id := "o7", mime := "application/vnd.code.notebook.error",
    text := "\x7b\"name\":\"TypeError\",\"message\":\"x is undefined\"\x7d", data := [] }

def exC7 : Dom := Dom.node "div" [] [] "" false []

theorem error_decoded_witness :
    renderError exO7 exC7 =
      (headerStep (appendChild exC7 (createElement "div"))
          (composeHeader (some "TypeError") (some "x is undefined"))).addClass "error" ∧
    composeHeader (some "TypeError") (some "x is undefined")
      = some "TypeError: x is undefined" := by
  have h := error_decoded exO7 exC7
    { name := some "TypeError", message := some "x is undefined", stack := none } (by decide)
  exact ⟨h.2.2.1 rfl,
    h.2.2.2.1 "TypeError" "x is undefined" rfl (by decide) rfl (by decide)⟩

/-- C6: the dispatch table: each supported mime string makes renderOutputItem
invoke exactly its mapped strategy — markup and executable script behind the
trust gate, raster image with Disposer registration, structured error,
stdout stream including the application/x.notebook.stream alias, stderr
stream, plain text — and every other mime string is a no-op that leaves the
surface and the registry unmutated. -/
theorem dispatch_table (ctx : RenderContext) (outputInfo : OutputItem)
    (surface : Surface) (st : ActState) :
    (outputInfo.mime ∈ markupMimes →
       renderOutputItem ctx outputInfo surface st =
         (if ctx.isTrusted then
            { surface with container := renderHTML outputInfo surface.container }
          else surface, st)) ∧
    (outputInfo.mime = "application/javascript" →
       renderOutputItem ctx outputInfo surface st =
         (if ctx.isTrusted then
            { surface with container := renderJavascript outputInfo surface.container }
          else surface, st)) ∧
    (outputInfo.mime ∈ imageMimes →
       renderOutputItem ctx outputInfo surface st =
         ({ surface with container := (renderImage outputInfo surface.container st.nextUrl).1 },
          { st with disposables := mapSet st.disposables outputInfo.id st.nextUrl
                    nextUrl := st.nextUrl + 1 })) ∧
    (outputInfo.mime = "application/vnd.code.notebook.error" →
       renderOutputItem ctx outputInfo surface st =
         ({ surface with container := renderError outputInfo surface.container }, st)) ∧
    (outputInfo.mime ∈ stdoutMimes →
       renderOutputItem ctx outputInfo surface st = (renderStream outputInfo surface false, st)) ∧
    (outputInfo.mime ∈ stderrMimes →
       renderOutputItem ctx outputInfo surface st = (renderStream outputInfo surface true, st)) ∧
    (outputInfo.mime = "text/plain" →
       renderOutputItem ctx outputInfo surface st =
         ({ surface with container := renderText outputInfo surface.container }, st)) ∧
    (outputInfo.mime ∉ supportedMimes →
       renderOutputItem ctx outputInfo surface st = (surface, st)) := by
  refine ⟨?_, ?_, ?_, ?_, ?_, ?_, ?_, ?_⟩
  · intro hm
    simp only [markupMimes, List.mem_cons, List.not_mem_nil, or_false] at hm
    rcases hm with hm | hm <;> cases ht : ctx.isTrusted <;> simp [renderOutputItem, hm, ht]
  · intro hm
    cases ht : ctx.isTrusted <;> simp [renderOutputItem, hm, ht]
  · exact renderOutputItem_image_state ctx outputInfo surface st
  · intro hm
    simp [renderOutputItem, hm, imageMimes]
  · intro hm
    simp only [stdoutMimes, List.mem_cons, List.not_mem_nil, or_false] at hm
    rcases hm with hm | hm | hm <;> simp [renderOutputItem, hm, imageMimes, stdoutMimes]
  · intro hm
    simp only [stderrMimes, List.mem_cons, List.not_mem_nil, or_false] at hm
    rcases hm with hm | hm <;>
      simp [renderOutputItem, hm, imageMimes, stdoutMimes, stderrMimes]
  · intro hm
    simp [renderOutputItem, hm, imageMimes, stdoutMimes, stderrMimes]
  · intro h
    have h1 : ¬(outputInfo.mime = "text/html") := fun he =>
      h (by simp [supportedMimes, markupMimes, he])
    have h2 : ¬(outputInfo.mime = "image/svg+xml") := fun he =>
      h (by simp [supportedMimes, markupMimes, he])
    have h3 : ¬(outputInfo.mime = "application/javascript") := fun he =>
      h (by simp [supportedMimes, he])
    have h4 : ¬(outputInfo.mime ∈ imageMimes) := fun he =>
      h (by simp [supportedMimes, List.mem_append, he])
    have h5 : ¬(outputInfo.mime = "application/vnd.code.notebook.error") := fun he =>
      h (by simp [supportedMimes, he])
    have h6 : ¬(outputInfo.mime ∈ stdoutMimes) := fun he =>
      h (by simp [supportedMimes, List.mem_append, he])
    have h7 : ¬(outputInfo.mime ∈ stderrMimes) := fun he =>
      h (by simp [supportedMimes, List.mem_append, he])
    have h8 : ¬(outputInfo.mime = "text/plain") := fun he =>
      h (by simp [supportedMimes, List.mem_append, he])
    simp [renderOutputItem, h1, h2, h3, h4, h5, h6, h7, h8]

theorem dispatch_table_witness :
    renderOutputItem { isTrusted := true }
        { id := "w6", mime := "application/unknown-mime", text := "zzz", data := [] }
        { hasParent := true, prevSibling := none, container := Dom.node "div" [] [] "" false [] }
        activateState =
      ({ hasParent := true, prevSibling := none, container := Dom.node "div" [] [] "" false [] },
       activateState) :=
  (dispatch_table _ _ _ _).2.2.2.2.2.2.2 (by decide)

/-- C8: a raster-image payload ('image/gif', 'image/png', 'image/jpeg', plus
the legacy misspelled 'image/git') renders irrespective of the trust state
(no trust hypothesis appears below), registers exactly one Disposer keyed by
the payload identity — a single map update, leaving the invocation log
untouched — and the first disposeOutputItem with that identity invokes
exactly that Disposer, exactly once. -/
theorem image_registers_disposer (ctx : RenderContext) (outputInfo : OutputItem)
    (surface : Surface) (st : ActState)
    (him : outputInfo.mime ∈ imageMimes) (hid : outputInfo.id ≠ "") :
    ((renderOutputItem ctx outputInfo surface st).1).container =
      (renderImage outputInfo surface.container st.nextUrl).1 ∧
    ((renderOutputItem ctx outputInfo surface st).2).disposables =
      mapSet st.disposables outputInfo.id st.nextUrl ∧
    mapGet ((renderOutputItem ctx outputInfo surface st).2).disposables outputInfo.id
      = some st.nextUrl ∧
    ((renderOutputItem ctx outputInfo surface st).2).invoked = st.invoked ∧
    (disposeOutputItem (renderOutputItem ctx outputInfo surface st).2
        (some outputInfo.id)).invoked
      = st.invoked ++ [st.nextUrl] := by
  rw [renderOutputItem_image_state ctx outputInfo surface st him]
  refine ⟨rfl, rfl, mapGet_mapSet_same _ _ _, rfl, ?_⟩
  simp [disposeOutputItem, hid, mapGet_mapSet_same]

theorem image_registers_disposer_witness :
    (disposeOutputItem
        (renderOutputItem { isTrusted := true }
            { id := "i1", mime := "image/png", text := "", data := [1, 2] }
            { hasParent := true, prevSibling := none,
              container := Dom.node "div" [] [] "" false [] }
            activateState).2
        (some "i1")).invoked = [] ++ [0] :=
  (image_registers_disposer { isTrusted := true }
      { id := "i1", mime := "image/png", text := "", data := [1, 2] }
      { hasParent := true, prevSibling := none,
        container := Dom.node "div" [] [] "" false [] }
      activateState (by decide) (by decide)).2.2.2.2

/-- C10: two image renders carrying the same payload identity within one
activation: the second registration overwrites the map entry, so afterwards
the registry holds exactly the second Disposer under that identity, the
first Disposer's token is no longer reachable through the registry, and no
sequence of disposeOutputItem calls ever invokes it — it is discarded
without invocation. -/
theorem image_rerender_overwrites (ctx ctx2 : RenderContext) (o o2 : OutputItem)
    (surface surface2 : Surface) (st : ActState)
    (him : o.mime ∈ imageMimes) (him2 : o2.mime ∈ imageMimes) (hid : o2.id = o.id)
    (hfresh : st.nextUrl ∉ st.disposables.map (fun p => p.2))
    (hninv : st.nextUrl ∉ st.invoked) :
    ((renderOutputItem ctx2 o2 surface2 (renderOutputItem ctx o surface st).2).2).disposables =
      mapSet st.disposables o.id (st.nextUrl + 1) ∧
    mapGet
        ((renderOutputItem ctx2 o2 surface2 (renderOutputItem ctx o surface st).2).2).disposables
        o.id = some (st.nextUrl + 1) ∧
    st.nextUrl ∉
      ((renderOutputItem ctx2 o2 surface2
          (renderOutputItem ctx o surface st).2).2).disposables.map (fun p => p.2) ∧
    ∀ calls, st.nextUrl ∉
      (runDisposes ((renderOutputItem ctx2 o2 surface2
          (renderOutputItem ctx o surface st).2).2) calls).invoked := by
  rw [renderOutputItem_image_state ctx o surface st him]
  rw [renderOutputItem_image_state ctx2 o2 surface2 _ him2]
  simp only [hid]
  rw [mapSet_mapSet_same]
  have hv : st.nextUrl ∉ (mapSet st.disposables o.id (st.nextUrl + 1)).map (fun p => p.2) :=
    values_mapSet_not_mem _ _ _ _ hfresh (by omega)
  exact ⟨rfl, mapGet_mapSet_same _ _ _, hv,
    fun calls => not_invoked_runDisposes calls _ _ hv hninv⟩

theorem image_rerender_overwrites_witness :
    mapGet
      ((renderOutputItem { isTrusted := false }
          { id := "i1", mime := "image/gif", text := "", data := [9] }
          { hasParent := true, prevSibling := none,
            container := Dom.node "div" [] [] "" false [] }
          (renderOutputItem { isTrusted := true }
            { id := "i1", mime := "image/png", text := "", data := [1] }
            { hasParent := true, prevSibling := none,
              container := Dom.node "div" [] [] "" false [] }
            activateState).2).2).disposables
      "i1" = some (0 + 1) :=
  (image_rerender_overwrites { isTrusted := true } { isTrusted := false }
      { id := "i1", mime := "image/png", text := "", data := [1] }
      { id := "i1", mime := "image/gif", text := "", data := [9] }
      { hasParent := true, prevSibling := none, container := Dom.node "div" [] [] "" false [] }
      { hasParent := true, prevSibling := none, container := Dom.node "div" [] [] "" false [] }
      activateState (by decide) (by decide) rfl (by decide) (by decide)).2.1

end NotebookRenderers
